import Mathlib

/-!
Shallow embedding of `src/google-drive-transfer/src/services/transferService.js`.

The Google Drive remote state is modelled as `DriveState` (an association list
from file id to file metadata plus its permission list).  Every Drive API call
made by the service is recorded in an `Event` trace, including the inter-transfer
pacing delay of the batch loop.  Methods of the JS class `TransferService`
become pure functions threading the state and accumulating the trace; a thrown
JS `Error` becomes `Except.error` carrying the same message string the code
builds.
-/

namespace DriveTransfer

/-- A Drive principal: `{ emailAddress, displayName }`. -/
structure Principal where
  emailAddress : String
  displayName : String
deriving Repr, DecidableEq

/-- A Drive permission record: `{ id, role, type, emailAddress }`
(the JS field `type` is spelled `ptype` here). -/
structure Permission where
  id : String
  role : String
  ptype : String
  emailAddress : String
deriving Repr, DecidableEq

/-- File metadata as fetched by `getFileDetails` (fields the service reads:
`id, name, mimeType, owners`).  `owners` is `none` when the field is absent
in the API response (JS `undefined`). -/
structure FileRecord where
  id : String
  name : String
  mimeType : String
  owners : Option (List Principal)
deriving Repr, DecidableEq

/-- One remote file: its metadata snapshot and its permission list. -/
structure DriveFile where
  record : FileRecord
  permissions : List Permission
deriving Repr, DecidableEq

/-- The remote Drive state: files keyed by file id, plus a counter used to
mint fresh permission ids for `permissions.create`. -/
structure DriveState where
  files : List (String × DriveFile)
  nextPermId : Nat
deriving Repr, DecidableEq

/-- Observable events: the four Drive API endpoints the service calls, and the
pacing delay awaited by `batchTransferOwnership`. -/
inductive Event where
  | getFile (fileId : String)
  | listPermissions (fileId : String)
  | createPermission (fileId : String) (emailAddress : String) (role : String)
  | updatePermission (fileId : String) (permissionId : String) (role : String)
      (transferOwnership : Bool) (sendNotificationEmail : Bool)
  | delay (ms : Nat)
deriving Repr, DecidableEq

/-- The JS `options` object.  JS object destructuring picks out named keys and
ignores the rest, so the record carries every key any caller might pass,
each `Option`al (`none` = key absent). -/
structure TransferOptions where
  transferOwnership : Option Bool := none
  sendNotificationEmail : Option Bool := none
  moveToNewOwnerDrive : Option Bool := none
  delayBetweenTransfers : Option Nat := none
  delayBetweenTransfersMs : Option Nat := none
  continueOnError : Option Bool := none
deriving Repr, DecidableEq

/-- The object returned by `transferFileOwnership` on success and built by the
batch loop on failure (`message`/`error`/`fileName`/`newOwner` are `none` when
the JS object lacks the field). -/
structure TransferOutcome where
  success : Bool
  message : Option String
  error : Option String
  fileId : String
  fileName : Option String
  newOwner : Option String
deriving Repr, DecidableEq

/-- `summary` object of `batchTransferOwnership`. -/
structure BatchSummary where
  successful : Nat
  failed : Nat
  total : Nat
deriving Repr, DecidableEq

/-- Return value of `batchTransferOwnership`: `{ results, summary }`. -/
structure BatchReturn where
  results : List TransferOutcome
  summary : BatchSummary
deriving Repr, DecidableEq

/-- Result object of `validateTransferPreconditions`. -/
structure ValidationResult where
  valid : Bool
  currentOwner : Option String := none
  fileName : Option String := none
  error : Option String := none
deriving Repr, DecidableEq

/-- Look a file up by id in the remote state. -/
def lookupFile (s : DriveState) (fileId : String) : Option DriveFile :=
  (s.files.find? (fun kv => kv.1 == fileId)).map (fun kv => kv.2)

/-- Replace the permission list of file `fileId` (models the server-side
effect of `permissions.create` / `permissions.update`). -/
def setFilePermissions (s : DriveState) (fileId : String) (perms : List Permission) :
    DriveState :=
  { s with files := s.files.map (fun kv =>
      if kv.1 == fileId then (kv.1, { kv.2 with permissions := perms }) else kv) }

/-- `getFileDetails(fileId)`: one `files.get` call; throws
`Failed to get file details: ...` when the file is absent/inaccessible. -/
def getFileDetails (s : DriveState) (fileId : String) :
    Except String FileRecord × List Event :=
  (match lookupFile s fileId with
   | some f => Except.ok f.record
   | none => Except.error "Failed to get file details: File not found",
   [Event.getFile fileId])

/-- `getFilePermissions(fileId)`: one `permissions.list` call; throws
`Failed to get permissions: ...` when the file is absent/inaccessible. -/
def getFilePermissions (s : DriveState) (fileId : String) :
    Except String (List Permission) × List Event :=
  (match lookupFile s fileId with
   | some f => Except.ok f.permissions
   | none => Except.error "Failed to get permissions: File not found",
   [Event.listPermissions fileId])

/-- `addPermission(fileId, emailAddress, role, type = 'user')`: one
`permissions.create` call appending a fresh permission; throws
`Failed to add permission: ...` on API failure (file absent). -/
def addPermission (s : DriveState) (fileId emailAddress role : String) :
    Except String Permission × DriveState × List Event :=
  match lookupFile s fileId with
  | some f =>
    let perm : Permission :=
      { id := "perm-" ++ toString s.nextPermId, role := role, ptype := "user",
        emailAddress := emailAddress }
    (Except.ok perm,
     { setFilePermissions s fileId (f.permissions ++ [perm]) with
         nextPermId := s.nextPermId + 1 },
     [Event.createPermission fileId emailAddress role])
  | none =>
    (Except.error "Failed to add permission: File not found", s,
     [Event.createPermission fileId emailAddress role])

/-- `promoteToOwner(fileId, emailAddress, sendNotificationEmail = false)`:
re-lists permissions, locates the target's permission, and issues
`permissions.update` setting `role: 'owner'` with `transferOwnership: true`;
every failure is wrapped as `Failed to promote to owner: ...`. -/
def promoteToOwner (s : DriveState) (fileId emailAddress : String)
    (sendNotificationEmail : Bool) : Except String Unit × DriveState × List Event :=
  let ps := getFilePermissions s fileId
  match ps.1 with
  | Except.error e => (Except.error ("Failed to promote to owner: " ++ e), s, ps.2)
  | Except.ok permissions =>
    match permissions.find? (fun perm => perm.emailAddress == emailAddress) with
    | none =>
      (Except.error ("Failed to promote to owner: User " ++ emailAddress ++
        " does not have permission to this file"), s, ps.2)
    | some userPermission =>
      (Except.ok (),
       setFilePermissions s fileId (permissions.map (fun p =>
         if p.id == userPermission.id then { p with role := "owner" } else p)),
       ps.2 ++ [Event.updatePermission fileId userPermission.id "owner" true
         sendNotificationEmail])

/-- The success object returned at the end of `transferFileOwnership`. -/
def transferredOutcome (fileId fileName newOwnerEmail : String) : TransferOutcome :=
  { success := true, message := some "Ownership transferred successfully",
    error := none, fileId := fileId, fileName := some fileName,
    newOwner := some newOwnerEmail }

/-- Steps 3-4 of `transferFileOwnership` once the target is known to hold a
(possibly just-created) non-owner permission: promote when the
`transferOwnership` option is set, then return the success object. -/
def promoteStep (s : DriveState) (fileId newOwnerEmail : String)
    (transferOwnership sendNotificationEmail : Bool) (fileName : String)
    (tAcc : List Event) : Except String TransferOutcome × DriveState × List Event :=
  if transferOwnership then
    match promoteToOwner s fileId newOwnerEmail sendNotificationEmail with
    | (Except.error e, s2, t4) =>
      (Except.error ("Transfer failed: " ++ e), s2, tAcc ++ t4)
    | (Except.ok _, s2, t4) =>
      (Except.ok (transferredOutcome fileId fileName newOwnerEmail), s2, tAcc ++ t4)
  else
    (Except.ok (transferredOutcome fileId fileName newOwnerEmail), s, tAcc)

/-- `transferFileOwnership` body after the `options` destructuring: fetch file,
list permissions, short-circuit when the target is already owner, create a
`writer` permission when the target holds none, then promote.  The outer JS
`catch` rethrows every failure as `Transfer failed: ...`. -/
def transferOwnershipCore (s : DriveState) (fileId newOwnerEmail : String)
    (transferOwnership sendNotificationEmail : Bool) :
    Except String TransferOutcome × DriveState × List Event :=
  let fd := getFileDetails s fileId
  match fd.1 with
  | Except.error e => (Except.error ("Transfer failed: " ++ e), s, fd.2)
  | Except.ok fileDetails =>
    let ps := getFilePermissions s fileId
    match ps.1 with
    | Except.error e => (Except.error ("Transfer failed: " ++ e), s, fd.2 ++ ps.2)
    | Except.ok existingPermissions =>
      match existingPermissions.find? (fun perm => perm.emailAddress == newOwnerEmail) with
      | some existingPermission =>
        if existingPermission.role == "owner" then
          (Except.ok
             { success := true, message := some "Already owner", error := none,
               fileId := fileId, fileName := some fileDetails.name, newOwner := none },
           s, fd.2 ++ ps.2)
        else
          promoteStep s fileId newOwnerEmail transferOwnership sendNotificationEmail
            fileDetails.name (fd.2 ++ ps.2)
      | none =>
        match addPermission s fileId newOwnerEmail "writer" with
        | (Except.error e, s1, t3) =>
          (Except.error ("Transfer failed: " ++ e), s1, fd.2 ++ ps.2 ++ t3)
        | (Except.ok _, s1, t3) =>
          promoteStep s1 fileId newOwnerEmail transferOwnership sendNotificationEmail
            fileDetails.name (fd.2 ++ ps.2 ++ t3)

/-- `transferFileOwnership(fileId, newOwnerEmail, options = {})`: destructures
`transferOwnership = true` and `sendNotificationEmail = false` from `options`
and runs the transfer sequence. -/
def transferFileOwnership (s : DriveState) (fileId newOwnerEmail : String)
    (options : TransferOptions) : Except String TransferOutcome × DriveState × List Event :=
  transferOwnershipCore s fileId newOwnerEmail
    (options.transferOwnership.getD true) (options.sendNotificationEmail.getD false)

/-- The `{ success: false, error, fileId }` object the batch loop pushes in its
`catch` block. -/
def errorOutcome (fileId msg : String) : TransferOutcome :=
  { success := false, message := none, error := some msg, fileId := fileId,
    fileName := none, newOwner := none }

/-- The `for` loop of `batchTransferOwnership` after destructuring
`delayBetweenTransfers = 1000` and `continueOnError = true`: each iteration
runs `transferFileOwnership`; on success it pushes the result and, when more
items remain (`i < fileIds.length - 1`), awaits the pacing delay; on error it
pushes the error object and either continues or breaks. -/
def batchLoop (s : DriveState) (fileIds : List String) (newOwnerEmail : String)
    (options : TransferOptions) (delayBetweenTransfers : Nat) (continueOnError : Bool) :
    List TransferOutcome × DriveState × List Event :=
  match fileIds with
  | [] => ([], s, [])
  | fileId :: rest =>
    let tr := transferFileOwnership s fileId newOwnerEmail options
    match tr.1 with
    | Except.ok result =>
      let dtrace : List Event :=
        if rest.isEmpty then [] else [Event.delay delayBetweenTransfers]
      let next := batchLoop tr.2.1 rest newOwnerEmail options delayBetweenTransfers
        continueOnError
      (result :: next.1, next.2.1, tr.2.2 ++ (dtrace ++ next.2.2))
    | Except.error e =>
      if continueOnError then
        let next := batchLoop tr.2.1 rest newOwnerEmail options delayBetweenTransfers
          continueOnError
        (errorOutcome fileId e :: next.1, next.2.1, tr.2.2 ++ next.2.2)
      else
        ([errorOutcome fileId e], tr.2.1, tr.2.2)

/-- `batchTransferOwnership(fileIds, newOwnerEmail, options = {})`: runs the
loop and builds `{ results, summary: { successful, failed, total } }`. -/
def batchTransferOwnership (s : DriveState) (fileIds : List String)
    (newOwnerEmail : String) (options : TransferOptions) :
    BatchReturn × DriveState × List Event :=
  let r := batchLoop s fileIds newOwnerEmail options
    (options.delayBetweenTransfers.getD 1000) (options.continueOnError.getD true)
  ({ results := r.1,
     summary :=
       { successful := (r.1.filter (fun x => x.success)).length,
         failed := (r.1.filter (fun x => !x.success)).length,
         total := fileIds.length } },
   r.2.1, r.2.2)

/-- A character admitted by the `[^\s@]` classes of the JS email regex. -/
def emailChar (c : Char) : Bool :=
  !c.isWhitespace && c != '@'

/-- `isValidEmail(email)`: denotation of the regex test
`/^[^\s@]+@[^\s@]+\.[^\s@]+$/.test(email)` — the string splits at its (then
necessarily unique) `@` into a nonempty local part and a nonempty domain,
both consisting of `[^\s@]` characters only, the domain containing a dot that
is neither its first nor its last character (so that both `[^\s@]+` sides of
`\.` are nonempty). -/
def isValidEmail (email : String) : Bool :=
  let cs := email.toList
  let localPart := cs.takeWhile (fun c => c != '@')
  match cs.dropWhile (fun c => c != '@') with
  | [] => false
  | _ :: domain =>
    localPart.length > 0 && localPart.all emailChar &&
    domain.length > 0 && domain.all emailChar &&
    ((domain.drop 1).dropLast.contains '.')

/-- `validateTransferPreconditions(fileId, newOwnerEmail)`: fetches the file,
reads `owners && owners[0]`, then checks `isValidEmail`; every throw is caught
and returned as `{ valid: false, error }`. -/
def validateTransferPreconditions (s : DriveState) (fileId newOwnerEmail : String) :
    ValidationResult × List Event :=
  let fd := getFileDetails s fileId
  match fd.1 with
  | Except.error e => ({ valid := false, error := some e }, fd.2)
  | Except.ok fileDetails =>
    match (fileDetails.owners.getD []).head? with
    | none =>
      ({ valid := false, error := some "Could not determine current file owner" }, fd.2)
    | some currentOwner =>
      if isValidEmail newOwnerEmail then
        ({ valid := true, currentOwner := some currentOwner.emailAddress,
           fileName := some fileDetails.name }, fd.2)
      else
        ({ valid := false, error := some "Invalid new owner email address" }, fd.2)

/-- Is this event a pacing delay? -/
def isDelayEvent : Event → Bool
  | Event.delay _ => true
  | _ => false

/-- Is this event a mutating (write) API call? -/
def isWriteEvent : Event → Bool
  | Event.createPermission _ _ _ => true
  | Event.updatePermission _ _ _ _ _ => true
  | _ => false

/-- The delay events of a trace. -/
def delayEvents (t : List Event) : List Event := t.filter isDelayEvent

/-- The write (mutating) API calls of a trace. -/
def writeEvents (t : List Event) : List Event := t.filter isWriteEvent

/-- The role the target principal holds on the file, if any (role of the first
permission whose `emailAddress` matches, as `find` locates it). -/
def targetPermissionRole (s : DriveState) (fileId emailAddress : String) :
    Option String :=
  (lookupFile s fileId).bind (fun f =>
    (f.permissions.find? (fun p => p.emailAddress == emailAddress)).map
      (fun p => p.role))

/-- Did a transfer result (possibly thrown) report success? -/
def resultSuccess : Except String TransferOutcome → Bool
  | Except.ok o => o.success
  | Except.error _ => false

/-- Concrete owner permission used by the example states. -/
def ownerPermA : Permission :=
  { id := "permA", role := "owner", ptype := "user", emailAddress := "a@x.com" }

/-- Concrete owner principal used by the example states. -/
def principalA : Principal := { emailAddress := "a@x.com", displayName := "A" }

/-- Example file `F1`, owned by `a@x.com`. -/
def fileF1 : DriveFile :=
  { record :=
      { id := "F1", name := "Doc1", mimeType := "application/pdf",
        owners := some [principalA] },
    permissions := [ownerPermA] }

/-- Example file `F2`, owned by `a@x.com`. -/
def fileF2 : DriveFile :=
  { record :=
      { id := "F2", name := "Doc2", mimeType := "text/plain",
        owners := some [principalA] },
    permissions := [ownerPermA] }

/-- Example remote state holding `F1` and `F2`. -/
def s0 : DriveState := { files := [("F1", fileF1), ("F2", fileF2)], nextPermId := 0 }

/-! ### Basic facts about the API embedding -/

theorem getFileDetails_snd (s : DriveState) (fileId : String) :
    (getFileDetails s fileId).2 = [Event.getFile fileId] := rfl

theorem getFilePermissions_snd (s : DriveState) (fileId : String) :
    (getFilePermissions s fileId).2 = [Event.listPermissions fileId] := rfl

theorem getFileDetails_of_some {s : DriveState} {fileId : String} {f : DriveFile}
    (h : lookupFile s fileId = some f) :
    getFileDetails s fileId = (Except.ok f.record, [Event.getFile fileId]) := by
  simp [getFileDetails, h]

theorem getFileDetails_of_none {s : DriveState} {fileId : String}
    (h : lookupFile s fileId = none) :
    getFileDetails s fileId =
      (Except.error "Failed to get file details: File not found",
       [Event.getFile fileId]) := by
  simp [getFileDetails, h]

theorem getFilePermissions_of_some {s : DriveState} {fileId : String} {f : DriveFile}
    (h : lookupFile s fileId = some f) :
    getFilePermissions s fileId = (Except.ok f.permissions, [Event.listPermissions fileId]) := by
  simp [getFilePermissions, h]

theorem find?_map_setPerm (l : List (String × DriveFile)) (fileId : String)
    (ps : List Permission) :
    (l.map (fun kv =>
        if kv.1 == fileId then (kv.1, { kv.2 with permissions := ps }) else kv)).find?
        (fun kv => kv.1 == fileId) =
      (l.find? (fun kv => kv.1 == fileId)).map
        (fun kv => (kv.1, { kv.2 with permissions := ps })) := by
  induction l with
  | nil => rfl
  | cons kv t ih =>
    by_cases h : kv.1 = fileId
    · have hb : (kv.1 == fileId) = true := by simpa using h
      simp [List.find?_cons, h, hb, -List.find?_map]
    · have hb : (kv.1 == fileId) = false := by simpa using h
      simpa [List.find?_cons, h, hb, -List.find?_map] using ih

theorem lookupFile_setFilePermissions_self (s : DriveState) (fileId : String)
    (ps : List Permission) :
    lookupFile (setFilePermissions s fileId ps) fileId =
      (lookupFile s fileId).map (fun f => { f with permissions := ps }) := by
  simp only [lookupFile, setFilePermissions]
  rw [find?_map_setPerm]
  cases s.files.find? (fun kv => kv.1 == fileId) <;> rfl

theorem find?_map_roleUpdate (ps : List Permission) (email pid : String)
    (p : Permission) (h : ps.find? (fun q => q.emailAddress == email) = some p) :
    (ps.map (fun q => if q.id == pid then { q with role := "owner" } else q)).find?
        (fun q => q.emailAddress == email) =
      some (if p.id == pid then { p with role := "owner" } else p) := by
  induction ps with
  | nil => simp at h
  | cons q t ih =>
    by_cases hq : q.emailAddress = email
    · have hb : (q.emailAddress == email) = true := by simpa using hq
      rw [List.find?_cons, hb] at h
      injection h with h
      subst h
      by_cases hid : q.id = pid
      · have hb2 : (q.id == pid) = true := by simpa using hid
        simp [List.find?_cons, hid, hb2, hq, hb, -List.find?_map]
      · have hb2 : (q.id == pid) = false := by simpa using hid
        simp [List.find?_cons, hid, hb2, hq, hb, -List.find?_map]
    · have hb : (q.emailAddress == email) = false := by simpa using hq
      rw [List.find?_cons, hb] at h
      by_cases hid : q.id = pid
      · have hb2 : (q.id == pid) = true := by simpa using hid
        simpa [List.find?_cons, hid, hb2, hb, -List.find?_map] using ih h
      · have hb2 : (q.id == pid) = false := by simpa using hid
        simpa [List.find?_cons, hid, hb2, hb, -List.find?_map] using ih h

/-! ### Behaviour of the single-file transfer -/

/-- The permission object `permissions.create` mints in the model. -/
def mkPermission (n : Nat) (emailAddress role : String) : Permission :=
  { id := "perm-" ++ toString n, role := role, ptype := "user",
    emailAddress := emailAddress }

theorem lookupFile_nextPermId (s : DriveState) (n : Nat) (fileId : String) :
    lookupFile { s with nextPermId := n } fileId = lookupFile s fileId := rfl

theorem addPermission_of_some {s : DriveState} {fileId : String} {df : DriveFile}
    (h : lookupFile s fileId = some df) (emailAddress role : String) :
    addPermission s fileId emailAddress role =
      (Except.ok (mkPermission s.nextPermId emailAddress role),
       { setFilePermissions s fileId
           (df.permissions ++ [mkPermission s.nextPermId emailAddress role]) with
           nextPermId := s.nextPermId + 1 },
       [Event.createPermission fileId emailAddress role]) := by
  simp [addPermission, mkPermission, h]

theorem promoteToOwner_of_found {s : DriveState} {fileId emailAddress : String}
    {df : DriveFile} {p : Permission} (h : lookupFile s fileId = some df)
    (hfind : df.permissions.find? (fun q => q.emailAddress == emailAddress) = some p)
    (sn : Bool) :
    promoteToOwner s fileId emailAddress sn =
      (Except.ok (),
       setFilePermissions s fileId (df.permissions.map (fun q =>
         if q.id == p.id then { q with role := "owner" } else q)),
       [Event.listPermissions fileId,
        Event.updatePermission fileId p.id "owner" true sn]) := by
  simp [promoteToOwner, getFilePermissions_of_some h, hfind]

theorem targetPermissionRole_set_map {s : DriveState} {fileId emailAddress : String}
    {df : DriveFile} {p : Permission} (h : lookupFile s fileId = some df)
    (ps : List Permission)
    (hfind : ps.find? (fun q => q.emailAddress == emailAddress) = some p) :
    targetPermissionRole
      (setFilePermissions s fileId (ps.map (fun q =>
        if q.id == p.id then { q with role := "owner" } else q)))
      fileId emailAddress = some "owner" := by
  have hf := find?_map_roleUpdate ps emailAddress p.id p hfind
  unfold targetPermissionRole
  rw [lookupFile_setFilePermissions_self, h, Option.map_some', Option.some_bind]
  rw [show ({ df with permissions := ps.map (fun q =>
        if q.id == p.id then { q with role := "owner" } else q) } :
      DriveFile).permissions = ps.map (fun q =>
        if q.id == p.id then { q with role := "owner" } else q) from rfl, hf]
  simp

theorem transferOwnershipCore_of_none {s : DriveState} {fileId : String}
    (h : lookupFile s fileId = none) (newOwnerEmail : String) (tow sn : Bool) :
    transferOwnershipCore s fileId newOwnerEmail tow sn =
      (Except.error "Transfer failed: Failed to get file details: File not found",
       s, [Event.getFile fileId]) := by
  simp [transferOwnershipCore, getFileDetails_of_none h]

theorem transferOwnershipCore_already_owner {s : DriveState}
    {fileId newOwnerEmail : String} {df : DriveFile} {p : Permission}
    (h : lookupFile s fileId = some df)
    (hfind : df.permissions.find? (fun q => q.emailAddress == newOwnerEmail) = some p)
    (hrole : p.role = "owner") (tow sn : Bool) :
    transferOwnershipCore s fileId newOwnerEmail tow sn =
      (Except.ok
         { success := true, message := some "Already owner", error := none,
           fileId := fileId, fileName := some df.record.name, newOwner := none },
       s, [Event.getFile fileId, Event.listPermissions fileId]) := by
  have hb : (p.role == "owner") = true := by simpa using hrole
  simp [transferOwnershipCore, getFileDetails_of_some h,
    getFilePermissions_of_some h, hfind, hb]

theorem transferOwnershipCore_existing_skip {s : DriveState}
    {fileId newOwnerEmail : String} {df : DriveFile} {p : Permission}
    (h : lookupFile s fileId = some df)
    (hfind : df.permissions.find? (fun q => q.emailAddress == newOwnerEmail) = some p)
    (hrole : (p.role == "owner") = false) (sn : Bool) :
    transferOwnershipCore s fileId newOwnerEmail false sn =
      (Except.ok (transferredOutcome fileId df.record.name newOwnerEmail),
       s, [Event.getFile fileId, Event.listPermissions fileId]) := by
  simp [transferOwnershipCore, getFileDetails_of_some h,
    getFilePermissions_of_some h, hfind, hrole, promoteStep]

theorem transferOwnershipCore_existing_promote {s : DriveState}
    {fileId newOwnerEmail : String} {df : DriveFile} {p : Permission}
    (h : lookupFile s fileId = some df)
    (hfind : df.permissions.find? (fun q => q.emailAddress == newOwnerEmail) = some p)
    (hrole : (p.role == "owner") = false) (sn : Bool) :
    transferOwnershipCore s fileId newOwnerEmail true sn =
      (Except.ok (transferredOutcome fileId df.record.name newOwnerEmail),
       setFilePermissions s fileId (df.permissions.map (fun q =>
         if q.id == p.id then { q with role := "owner" } else q)),
       [Event.getFile fileId, Event.listPermissions fileId,
        Event.listPermissions fileId,
        Event.updatePermission fileId p.id "owner" true sn]) := by
  simp [transferOwnershipCore, getFileDetails_of_some h,
    getFilePermissions_of_some h, hfind, hrole, promoteStep,
    promoteToOwner_of_found h hfind sn]

theorem transferOwnershipCore_absent_skip {s : DriveState}
    {fileId newOwnerEmail : String} {df : DriveFile}
    (h : lookupFile s fileId = some df)
    (hfind : df.permissions.find? (fun q => q.emailAddress == newOwnerEmail) = none)
    (sn : Bool) :
    transferOwnershipCore s fileId newOwnerEmail false sn =
      (Except.ok (transferredOutcome fileId df.record.name newOwnerEmail),
       { setFilePermissions s fileId (df.permissions ++
           [mkPermission s.nextPermId newOwnerEmail "writer"]) with
           nextPermId := s.nextPermId + 1 },
       [Event.getFile fileId, Event.listPermissions fileId,
        Event.createPermission fileId newOwnerEmail "writer"]) := by
  simp [transferOwnershipCore, getFileDetails_of_some h,
    getFilePermissions_of_some h, hfind,
    addPermission_of_some h newOwnerEmail "writer", promoteStep]

theorem transferOwnershipCore_absent_promote {s : DriveState}
    {fileId newOwnerEmail : String} {df : DriveFile}
    (h : lookupFile s fileId = some df)
    (hfind : df.permissions.find? (fun q => q.emailAddress == newOwnerEmail) = none)
    (sn : Bool) :
    transferOwnershipCore s fileId newOwnerEmail true sn =
      (Except.ok (transferredOutcome fileId df.record.name newOwnerEmail),
       setFilePermissions
         { setFilePermissions s fileId (df.permissions ++
             [mkPermission s.nextPermId newOwnerEmail "writer"]) with
             nextPermId := s.nextPermId + 1 }
         fileId
         ((df.permissions ++ [mkPermission s.nextPermId newOwnerEmail "writer"]).map
           (fun q => if q.id == (mkPermission s.nextPermId newOwnerEmail "writer").id
             then { q with role := "owner" } else q)),
       [Event.getFile fileId, Event.listPermissions fileId,
        Event.createPermission fileId newOwnerEmail "writer",
        Event.listPermissions fileId,
        Event.updatePermission fileId
          (mkPermission s.nextPermId newOwnerEmail "writer").id "owner" true sn]) := by
  have h1 : lookupFile
      ({ setFilePermissions s fileId
          (df.permissions ++ [mkPermission s.nextPermId newOwnerEmail "writer"]) with
          nextPermId := s.nextPermId + 1 }) fileId =
      some { df with permissions :=
        df.permissions ++ [mkPermission s.nextPermId newOwnerEmail "writer"] } := by
    rw [lookupFile_nextPermId, lookupFile_setFilePermissions_self, h]
    rfl
  have hfound1 : ({ df with permissions := df.permissions ++
      [mkPermission s.nextPermId newOwnerEmail "writer"] } :
        DriveFile).permissions.find?
      (fun q => q.emailAddress == newOwnerEmail) =
      some (mkPermission s.nextPermId newOwnerEmail "writer") := by
    show (df.permissions ++ [mkPermission s.nextPermId newOwnerEmail "writer"]).find?
      (fun q => q.emailAddress == newOwnerEmail) = _
    rw [List.find?_append, hfind]
    simp [mkPermission]
  simp [transferOwnershipCore, getFileDetails_of_some h,
    getFilePermissions_of_some h, hfind,
    addPermission_of_some h newOwnerEmail "writer", promoteStep,
    promoteToOwner_of_found h1 hfound1 sn]

theorem transferOwnershipCore_ok_of_some {s : DriveState}
    {fileId : String} {df : DriveFile} (h : lookupFile s fileId = some df)
    (newOwnerEmail : String) (tow sn : Bool) :
    resultSuccess (transferOwnershipCore s fileId newOwnerEmail tow sn).1 = true ∧
    (targetPermissionRole (transferOwnershipCore s fileId newOwnerEmail tow sn).2.1
      fileId newOwnerEmail).isSome = true ∧
    (tow = true →
      targetPermissionRole (transferOwnershipCore s fileId newOwnerEmail tow sn).2.1
        fileId newOwnerEmail = some "owner") := by
  cases hfind : df.permissions.find? (fun q => q.emailAddress == newOwnerEmail) with
  | some p =>
    by_cases hrole : p.role = "owner"
    · rw [transferOwnershipCore_already_owner h hfind hrole tow sn]
      refine ⟨rfl, ?_, fun _ => ?_⟩ <;>
        simp [targetPermissionRole, h, hfind, hrole]
    · have hb : (p.role == "owner") = false := by simpa using hrole
      cases tow with
      | false =>
        rw [transferOwnershipCore_existing_skip h hfind hb sn]
        refine ⟨rfl, ?_, fun hto => by cases hto⟩
        simp [targetPermissionRole, h, hfind]
      | true =>
        have hro := targetPermissionRole_set_map h df.permissions hfind
        rw [transferOwnershipCore_existing_promote h hfind hb sn]
        exact ⟨rfl, by rw [hro]; rfl, fun _ => hro⟩
  | none =>
    have h1 : lookupFile
        ({ setFilePermissions s fileId
            (df.permissions ++ [mkPermission s.nextPermId newOwnerEmail "writer"]) with
            nextPermId := s.nextPermId + 1 }) fileId =
        some { df with permissions :=
          df.permissions ++ [mkPermission s.nextPermId newOwnerEmail "writer"] } := by
      rw [lookupFile_nextPermId, lookupFile_setFilePermissions_self, h]
      rfl
    have hfind1 : (df.permissions ++
        [mkPermission s.nextPermId newOwnerEmail "writer"]).find?
          (fun q => q.emailAddress == newOwnerEmail) =
        some (mkPermission s.nextPermId newOwnerEmail "writer") := by
      rw [List.find?_append, hfind]
      simp [mkPermission]
    cases tow with
    | false =>
      rw [transferOwnershipCore_absent_skip h hfind sn]
      refine ⟨rfl, ?_, fun hto => by cases hto⟩
      simp [targetPermissionRole, h1, hfind1, -List.find?_map]
    | true =>
      have hro := targetPermissionRole_set_map h1
        (df.permissions ++ [mkPermission s.nextPermId newOwnerEmail "writer"]) hfind1
      rw [transferOwnershipCore_absent_promote h hfind sn]
      exact ⟨rfl, by rw [hro]; rfl, fun _ => hro⟩

/-- A transfer result is well-shaped for `fileId` when, if it is a success
object, it has `success = true` and carries that `fileId`. -/
def okShape (r : Except String TransferOutcome) (fileId : String) : Bool :=
  match r with
  | Except.ok o => o.success && (o.fileId == fileId)
  | Except.error _ => true

theorem transferOwnershipCore_okShape (s : DriveState)
    (fileId newOwnerEmail : String) (tow sn : Bool) :
    okShape (transferOwnershipCore s fileId newOwnerEmail tow sn).1 fileId = true := by
  cases hl : lookupFile s fileId with
  | none => rw [transferOwnershipCore_of_none hl newOwnerEmail tow sn]; rfl
  | some df =>
    cases hfind : df.permissions.find? (fun q => q.emailAddress == newOwnerEmail) with
    | some p =>
      by_cases hrole : p.role = "owner"
      · rw [transferOwnershipCore_already_owner hl hfind hrole tow sn]
        simp [okShape]
      · have hb : (p.role == "owner") = false := by simpa using hrole
        cases tow with
        | false =>
          rw [transferOwnershipCore_existing_skip hl hfind hb sn]
          simp [okShape, transferredOutcome]
        | true =>
          rw [transferOwnershipCore_existing_promote hl hfind hb sn]
          simp [okShape, transferredOutcome]
    | none =>
      cases tow with
      | false =>
        rw [transferOwnershipCore_absent_skip hl hfind sn]
        simp [okShape, transferredOutcome]
      | true =>
        rw [transferOwnershipCore_absent_promote hl hfind sn]
        simp [okShape, transferredOutcome]

theorem okShape_ok {r : Except String TransferOutcome} {fileId : String}
    {o : TransferOutcome} (h : okShape r fileId = true) (hok : r = Except.ok o) :
    o.success = true ∧ o.fileId = fileId := by
  subst hok
  simpa [okShape] using h

theorem transferFileOwnership_okShape (s : DriveState)
    (fileId newOwnerEmail : String) (options : TransferOptions) :
    okShape (transferFileOwnership s fileId newOwnerEmail options).1 fileId = true :=
  transferOwnershipCore_okShape s fileId newOwnerEmail _ _

theorem delayEvents_transferOwnershipCore (s : DriveState)
    (fileId newOwnerEmail : String) (tow sn : Bool) :
    delayEvents (transferOwnershipCore s fileId newOwnerEmail tow sn).2.2 = [] := by
  cases hl : lookupFile s fileId with
  | none => rw [transferOwnershipCore_of_none hl newOwnerEmail tow sn]; rfl
  | some df =>
    cases hfind : df.permissions.find? (fun q => q.emailAddress == newOwnerEmail) with
    | some p =>
      by_cases hrole : p.role = "owner"
      · rw [transferOwnershipCore_already_owner hl hfind hrole tow sn]; rfl
      · have hb : (p.role == "owner") = false := by simpa using hrole
        cases tow with
        | false => rw [transferOwnershipCore_existing_skip hl hfind hb sn]; rfl
        | true => rw [transferOwnershipCore_existing_promote hl hfind hb sn]; rfl
    | none =>
      cases tow with
      | false => rw [transferOwnershipCore_absent_skip hl hfind sn]; rfl
      | true => rw [transferOwnershipCore_absent_promote hl hfind sn]; rfl

theorem delayEvents_transferFileOwnership (s : DriveState)
    (fileId newOwnerEmail : String) (options : TransferOptions) :
    delayEvents (transferFileOwnership s fileId newOwnerEmail options).2.2 = [] :=
  delayEvents_transferOwnershipCore s fileId newOwnerEmail _ _

theorem trace_head_transferOwnershipCore (s : DriveState)
    (fileId newOwnerEmail : String) (tow sn : Bool) :
    (transferOwnershipCore s fileId newOwnerEmail tow sn).2.2.head? =
      some (Event.getFile fileId) := by
  cases hl : lookupFile s fileId with
  | none => rw [transferOwnershipCore_of_none hl newOwnerEmail tow sn]; rfl
  | some df =>
    cases hfind : df.permissions.find? (fun q => q.emailAddress == newOwnerEmail) with
    | some p =>
      by_cases hrole : p.role = "owner"
      · rw [transferOwnershipCore_already_owner hl hfind hrole tow sn]; rfl
      · have hb : (p.role == "owner") = false := by simpa using hrole
        cases tow with
        | false => rw [transferOwnershipCore_existing_skip hl hfind hb sn]; rfl
        | true => rw [transferOwnershipCore_existing_promote hl hfind hb sn]; rfl
    | none =>
      cases tow with
      | false => rw [transferOwnershipCore_absent_skip hl hfind sn]; rfl
      | true => rw [transferOwnershipCore_absent_promote hl hfind sn]; rfl

theorem transferFileOwnership_ok_target_isSome {s : DriveState}
    {fileId newOwnerEmail : String} {options : TransferOptions}
    {o : TransferOutcome}
    (hok : (transferFileOwnership s fileId newOwnerEmail options).1 = Except.ok o) :
    (targetPermissionRole (transferFileOwnership s fileId newOwnerEmail options).2.1
      fileId newOwnerEmail).isSome = true := by
  cases hl : lookupFile s fileId with
  | none =>
    rw [transferFileOwnership, transferOwnershipCore_of_none hl newOwnerEmail _ _] at hok
    simp at hok
  | some df =>
    exact (transferOwnershipCore_ok_of_some hl newOwnerEmail _ _).2.1

theorem targetPermissionRole_eq_some {s : DriveState} {fileId emailAddress r : String}
    (h : targetPermissionRole s fileId emailAddress = some r) :
    ∃ df p, lookupFile s fileId = some df ∧
      df.permissions.find? (fun q => q.emailAddress == emailAddress) = some p ∧
      p.role = r := by
  unfold targetPermissionRole at h
  cases hl : lookupFile s fileId with
  | none => rw [hl] at h; simp at h
  | some df =>
    rw [hl, Option.some_bind] at h
    cases hf : df.permissions.find? (fun q => q.emailAddress == emailAddress) with
    | none => rw [hf] at h; simp at h
    | some p =>
      rw [hf, Option.map_some'] at h
      exact ⟨df, p, rfl, hf, by simpa using h⟩

/-! ### Behaviour of the batch loop -/

theorem batchLoop_nil (s : DriveState) (newOwnerEmail : String)
    (options : TransferOptions) (d : Nat) (c : Bool) :
    batchLoop s [] newOwnerEmail options d c = ([], s, []) := rfl

theorem batchLoop_cons_ok {s : DriveState} {fileId newOwnerEmail : String}
    {options : TransferOptions} {r : TransferOutcome}
    (htr : (transferFileOwnership s fileId newOwnerEmail options).1 = Except.ok r)
    (rest : List String) (d : Nat) (c : Bool) :
    batchLoop s (fileId :: rest) newOwnerEmail options d c =
      (r :: (batchLoop (transferFileOwnership s fileId newOwnerEmail options).2.1
          rest newOwnerEmail options d c).1,
       (batchLoop (transferFileOwnership s fileId newOwnerEmail options).2.1
          rest newOwnerEmail options d c).2.1,
       (transferFileOwnership s fileId newOwnerEmail options).2.2 ++
         ((if rest.isEmpty then [] else [Event.delay d]) ++
          (batchLoop (transferFileOwnership s fileId newOwnerEmail options).2.1
            rest newOwnerEmail options d c).2.2)) := by
  simp only [batchLoop, htr]

theorem batchLoop_cons_err_continue {s : DriveState} {fileId newOwnerEmail : String}
    {options : TransferOptions} {e : String}
    (htr : (transferFileOwnership s fileId newOwnerEmail options).1 = Except.error e)
    (rest : List String) (d : Nat) :
    batchLoop s (fileId :: rest) newOwnerEmail options d true =
      (errorOutcome fileId e ::
         (batchLoop (transferFileOwnership s fileId newOwnerEmail options).2.1
           rest newOwnerEmail options d true).1,
       (batchLoop (transferFileOwnership s fileId newOwnerEmail options).2.1
          rest newOwnerEmail options d true).2.1,
       (transferFileOwnership s fileId newOwnerEmail options).2.2 ++
         (batchLoop (transferFileOwnership s fileId newOwnerEmail options).2.1
           rest newOwnerEmail options d true).2.2) := by
  simp only [batchLoop, htr, if_true]

theorem batchLoop_cons_err_halt {s : DriveState} {fileId newOwnerEmail : String}
    {options : TransferOptions} {e : String}
    (htr : (transferFileOwnership s fileId newOwnerEmail options).1 = Except.error e)
    (rest : List String) (d : Nat) :
    batchLoop s (fileId :: rest) newOwnerEmail options d false =
      ([errorOutcome fileId e],
       (transferFileOwnership s fileId newOwnerEmail options).2.1,
       (transferFileOwnership s fileId newOwnerEmail options).2.2) := by
  simp only [batchLoop, htr, Bool.false_eq_true, if_false]

theorem batchLoop_length_continue (newOwnerEmail : String)
    (options : TransferOptions) (d : Nat) :
    ∀ (fileIds : List String) (s : DriveState),
      (batchLoop s fileIds newOwnerEmail options d true).1.length = fileIds.length := by
  intro fileIds
  induction fileIds with
  | nil => intro s; rfl
  | cons fileId rest ih =>
    intro s
    cases htr : (transferFileOwnership s fileId newOwnerEmail options).1 with
    | ok r => rw [batchLoop_cons_ok htr rest d true]; simp [ih]
    | error e => rw [batchLoop_cons_err_continue htr rest d]; simp [ih]

theorem length_filter_success_add (l : List TransferOutcome) :
    (l.filter (fun x => x.success)).length +
      (l.filter (fun x => !x.success)).length = l.length := by
  induction l with
  | nil => rfl
  | cons x t ih =>
    cases hx : x.success <;>
      simp [List.filter_cons, hx, Nat.add_assoc, Nat.add_left_comm, ih,
        Nat.succ_eq_add_one] <;> omega

theorem batchLoop_map_fileId (newOwnerEmail : String) (options : TransferOptions)
    (d : Nat) (c : Bool) :
    ∀ (fileIds : List String) (s : DriveState),
      (batchLoop s fileIds newOwnerEmail options d c).1.map (fun x => x.fileId) =
        fileIds.take (batchLoop s fileIds newOwnerEmail options d c).1.length := by
  intro fileIds
  induction fileIds with
  | nil => intro s; rfl
  | cons fileId rest ih =>
    intro s
    cases htr : (transferFileOwnership s fileId newOwnerEmail options).1 with
    | ok r =>
      have hshape := okShape_ok (transferFileOwnership_okShape s fileId newOwnerEmail
        options) htr
      rw [batchLoop_cons_ok htr rest d c]
      simp [ih, hshape.2]
    | error e =>
      cases c with
      | true =>
        rw [batchLoop_cons_err_continue htr rest d]
        simp [ih, errorOutcome]
      | false =>
        rw [batchLoop_cons_err_halt htr rest d]
        simp [errorOutcome]

theorem batchLoop_halt_spec (newOwnerEmail : String) (options : TransferOptions)
    (d : Nat) :
    ∀ (fileIds : List String) (s : DriveState),
      (batchLoop s fileIds newOwnerEmail options d false).1.length ≤ fileIds.length ∧
      ((batchLoop s fileIds newOwnerEmail options d false).1 = [] ↔ fileIds = []) ∧
      (∀ x ∈ (batchLoop s fileIds newOwnerEmail options d false).1.dropLast,
        x.success = true) ∧
      ((batchLoop s fileIds newOwnerEmail options d false).1.length < fileIds.length →
        ∃ x, (batchLoop s fileIds newOwnerEmail options d false).1.getLast? = some x ∧
          x.success = false) := by
  intro fileIds
  induction fileIds with
  | nil =>
    intro s
    refine ⟨Nat.le_refl _, by simp [batchLoop_nil], by simp [batchLoop_nil], ?_⟩
    intro hlt
    simp [batchLoop_nil] at hlt
  | cons fileId rest ih =>
    intro s
    cases htr : (transferFileOwnership s fileId newOwnerEmail options).1 with
    | ok r =>
      have hshape := okShape_ok (transferFileOwnership_okShape s fileId newOwnerEmail
        options) htr
      obtain ⟨ihlen, ihnil, ihdrop, ihlast⟩ :=
        ih (transferFileOwnership s fileId newOwnerEmail options).2.1
      rw [batchLoop_cons_ok htr rest d false]
      refine ⟨by simpa using Nat.succ_le_succ ihlen, by simp, ?_, ?_⟩
      · intro x hx
        cases hrs : (batchLoop (transferFileOwnership s fileId newOwnerEmail
            options).2.1 rest newOwnerEmail options d false).1 with
        | nil => rw [hrs] at hx; simp at hx
        | cons y t =>
          rw [hrs] at hx
          rw [List.dropLast_cons_of_ne_nil (by simp)] at hx
          rcases List.mem_cons.mp hx with h1 | h1
          · subst h1; exact hshape.1
          · exact ihdrop x (by rw [hrs]; exact h1)
      · intro hlt
        simp only [List.length_cons, Nat.succ_lt_succ_iff] at hlt
        obtain ⟨x, hx, hxf⟩ := ihlast hlt
        refine ⟨x, ?_, hxf⟩
        show (r :: (batchLoop (transferFileOwnership s fileId newOwnerEmail
          options).2.1 rest newOwnerEmail options d false).1).getLast? = some x
        cases hrs : (batchLoop (transferFileOwnership s fileId newOwnerEmail
            options).2.1 rest newOwnerEmail options d false).1 with
        | nil =>
          have hrest : rest = [] := by rw [hrs] at ihnil; exact ihnil.mp rfl
          rw [hrest] at hlt
          simp at hlt
        | cons y t =>
          rw [hrs] at hx
          rw [List.getLast?_cons_cons]
          exact hx
    | error e =>
      rw [batchLoop_cons_err_halt htr rest d]
      refine ⟨by simp, by simp, by simp, ?_⟩
      intro hlt
      exact ⟨errorOutcome fileId e, rfl, rfl⟩

theorem delayEvents_append (t1 t2 : List Event) :
    delayEvents (t1 ++ t2) = delayEvents t1 ++ delayEvents t2 :=
  List.filter_append t1 t2

theorem delayEvents_nil : delayEvents [] = [] := rfl

theorem delayEvents_delay (d : Nat) :
    delayEvents [Event.delay d] = [Event.delay d] := rfl

theorem delayEvents_batchLoop (newOwnerEmail : String) (options : TransferOptions)
    (d : Nat) (c : Bool) :
    ∀ (fileIds : List String) (s : DriveState),
      (delayEvents (batchLoop s fileIds newOwnerEmail options d c).2.2).length =
        (((batchLoop s fileIds newOwnerEmail options d c).1.take
          (fileIds.length - 1)).filter (fun x => x.success)).length := by
  intro fileIds
  induction fileIds with
  | nil => intro s; rfl
  | cons fileId rest ih =>
    intro s
    cases htr : (transferFileOwnership s fileId newOwnerEmail options).1 with
    | ok r =>
      have hshape := okShape_ok (transferFileOwnership_okShape s fileId newOwnerEmail
        options) htr
      rw [batchLoop_cons_ok htr rest d c]
      cases rest with
      | nil =>
        simp [delayEvents_append, delayEvents_transferFileOwnership, batchLoop_nil,
          delayEvents_nil]
      | cons g grest =>
        have ihr := ih (transferFileOwnership s fileId newOwnerEmail options).2.1
        simp only [List.isEmpty_cons, Bool.false_eq_true, if_false,
          delayEvents_append, delayEvents_transferFileOwnership, delayEvents_delay,
          List.nil_append]
        simp [List.filter_cons, hshape.1, Nat.succ_sub_one, ihr]
    | error e =>
      cases c with
      | true =>
        have ihr := ih (transferFileOwnership s fileId newOwnerEmail options).2.1
        rw [batchLoop_cons_err_continue htr rest d]
        cases rest with
        | nil =>
          simp [delayEvents_append, delayEvents_transferFileOwnership, batchLoop_nil,
            delayEvents_nil]
        | cons g grest =>
          simp only [delayEvents_append, delayEvents_transferFileOwnership,
            List.nil_append]
          simp [List.filter_cons, errorOutcome, ihr, Nat.succ_sub_one]
      | false =>
        rw [batchLoop_cons_err_halt htr rest d]
        cases rest with
        | nil => simp [delayEvents_transferFileOwnership]
        | cons g grest =>
          simp [delayEvents_transferFileOwnership, List.filter_cons, errorOutcome]

theorem delayEvents_batchLoop_mem (newOwnerEmail : String)
    (options : TransferOptions) (d : Nat) (c : Bool) :
    ∀ (fileIds : List String) (s : DriveState),
      ∀ ev ∈ delayEvents (batchLoop s fileIds newOwnerEmail options d c).2.2,
        ev = Event.delay d := by
  intro fileIds
  induction fileIds with
  | nil => intro s ev hev; simp [batchLoop_nil, delayEvents] at hev
  | cons fileId rest ih =>
    intro s ev hev
    cases htr : (transferFileOwnership s fileId newOwnerEmail options).1 with
    | ok r =>
      rw [batchLoop_cons_ok htr rest d c] at hev
      rw [delayEvents_append, delayEvents_append,
        delayEvents_transferFileOwnership] at hev
      simp only [List.nil_append, List.mem_append] at hev
      rcases hev with hev | hev
      · cases rest with
        | nil => simp [delayEvents] at hev
        | cons g grest =>
          simp [delayEvents, List.filter_cons, isDelayEvent] at hev
          simp [hev]
      · exact ih _ ev hev
    | error e =>
      cases c with
      | true =>
        rw [batchLoop_cons_err_continue htr rest d] at hev
        rw [delayEvents_append, delayEvents_transferFileOwnership] at hev
        simp only [List.nil_append] at hev
        exact ih _ ev hev
      | false =>
        rw [batchLoop_cons_err_halt htr rest d] at hev
        rw [delayEvents_transferFileOwnership] at hev
        simp at hev

theorem transferFileOwnership_opts_congr {o1 o2 : TransferOptions}
    (h1 : o1.transferOwnership = o2.transferOwnership)
    (h2 : o1.sendNotificationEmail = o2.sendNotificationEmail)
    (s : DriveState) (fileId newOwnerEmail : String) :
    transferFileOwnership s fileId newOwnerEmail o1 =
      transferFileOwnership s fileId newOwnerEmail o2 := by
  unfold transferFileOwnership
  rw [h1, h2]

theorem batchLoop_opts_congr {o1 o2 : TransferOptions}
    (h1 : o1.transferOwnership = o2.transferOwnership)
    (h2 : o1.sendNotificationEmail = o2.sendNotificationEmail)
    (newOwnerEmail : String) :
    ∀ (fileIds : List String) (s : DriveState) (d : Nat) (c : Bool),
      batchLoop s fileIds newOwnerEmail o1 d c =
        batchLoop s fileIds newOwnerEmail o2 d c := by
  intro fileIds
  induction fileIds with
  | nil => intro s d c; rfl
  | cons fileId rest ih =>
    intro s d c
    have he := transferFileOwnership_opts_congr h1 h2 s fileId newOwnerEmail
    simp only [batchLoop, he, ih]

/-! ### Claim theorems -/

/-- C1: for every fileId sequence and `continueOnError = true`,
`batchTransferOwnership` produces one `TransferOutcome` per input element:
`results.length = length F`, `summary.successful + summary.failed = length F`,
and `summary.total = length F`. -/
theorem claim_C1_batch_counts (s : DriveState) (fileIds : List String)
    (newOwnerEmail : String) (options : TransferOptions)
    (h : options.continueOnError = some true) :
    (batchTransferOwnership s fileIds newOwnerEmail options).1.results.length =
      fileIds.length ∧
    (batchTransferOwnership s fileIds newOwnerEmail options).1.summary.successful +
      (batchTransferOwnership s fileIds newOwnerEmail options).1.summary.failed =
      fileIds.length ∧
    (batchTransferOwnership s fileIds newOwnerEmail options).1.summary.total =
      fileIds.length := by
  have hgd : options.continueOnError.getD true = true := by rw [h]; rfl
  have hlen := batchLoop_length_continue newOwnerEmail options
    (options.delayBetweenTransfers.getD 1000) fileIds s
  have hsum := length_filter_success_add
    (batchLoop s fileIds newOwnerEmail options
      (options.delayBetweenTransfers.getD 1000) true).1
  refine ⟨?_, ?_, ?_⟩
  · simpa only [batchTransferOwnership, hgd] using hlen
  · simp only [batchTransferOwnership, hgd]
    rw [hsum]
    exact hlen
  · simp [batchTransferOwnership]

/-- C1 witness: a concrete two-file batch with `continueOnError = true`. -/
theorem claim_C1_batch_counts_witness :
    (batchTransferOwnership s0 ["F1", "F2"] "b@x.com"
      { continueOnError := some true }).1.results.length = 2 ∧
    (batchTransferOwnership s0 ["F1", "F2"] "b@x.com"
      { continueOnError := some true }).1.summary.successful +
      (batchTransferOwnership s0 ["F1", "F2"] "b@x.com"
        { continueOnError := some true }).1.summary.failed = 2 ∧
    (batchTransferOwnership s0 ["F1", "F2"] "b@x.com"
      { continueOnError := some true }).1.summary.total = 2 :=
  claim_C1_batch_counts s0 ["F1", "F2"] "b@x.com"
    { continueOnError := some true } rfl

/-- C5: with `continueOnError = false` the batch halts at the first failing
element: `total` still equals `length F`, `successful + failed` equals the
number of recorded outcomes, at most `length F` outcomes are recorded, every
outcome before the last is a success (so any failure is the final recorded
outcome), and if the batch stopped early the last recorded outcome is the
failure. -/
theorem claim_C5_halt_on_failure (s : DriveState) (fileIds : List String)
    (newOwnerEmail : String) (options : TransferOptions)
    (h : options.continueOnError = some false) :
    (batchTransferOwnership s fileIds newOwnerEmail options).1.summary.total =
      fileIds.length ∧
    (batchTransferOwnership s fileIds newOwnerEmail options).1.summary.successful +
      (batchTransferOwnership s fileIds newOwnerEmail options).1.summary.failed =
      (batchTransferOwnership s fileIds newOwnerEmail options).1.results.length ∧
    (batchTransferOwnership s fileIds newOwnerEmail options).1.results.length ≤
      fileIds.length ∧
    (∀ x ∈ (batchTransferOwnership s fileIds newOwnerEmail
        options).1.results.dropLast, x.success = true) ∧
    ((batchTransferOwnership s fileIds newOwnerEmail options).1.results.length <
        fileIds.length →
      ∃ x, (batchTransferOwnership s fileIds newOwnerEmail
          options).1.results.getLast? = some x ∧ x.success = false) := by
  have hgd : options.continueOnError.getD true = false := by rw [h]; rfl
  obtain ⟨hlen, _, hdrop, hlast⟩ := batchLoop_halt_spec newOwnerEmail options
    (options.delayBetweenTransfers.getD 1000) fileIds s
  have hsum := length_filter_success_add
    (batchLoop s fileIds newOwnerEmail options
      (options.delayBetweenTransfers.getD 1000) false).1
  refine ⟨?_, ?_, ?_, ?_, ?_⟩
  · simp [batchTransferOwnership]
  · simp only [batchTransferOwnership, hgd]
    exact hsum
  · simpa only [batchTransferOwnership, hgd] using hlen
  · simpa only [batchTransferOwnership, hgd] using hdrop
  · simpa only [batchTransferOwnership, hgd] using hlast

/-- C5 witness: a concrete batch whose first element fails with
`continueOnError = false` halts after one outcome. -/
theorem claim_C5_halt_on_failure_witness :
    (batchTransferOwnership s0 ["NOPE", "F2"] "b@x.com"
      { continueOnError := some false }).1.summary.total = 2 ∧
    (batchTransferOwnership s0 ["NOPE", "F2"] "b@x.com"
      { continueOnError := some false }).1.summary.successful +
      (batchTransferOwnership s0 ["NOPE", "F2"] "b@x.com"
        { continueOnError := some false }).1.summary.failed =
      (batchTransferOwnership s0 ["NOPE", "F2"] "b@x.com"
        { continueOnError := some false }).1.results.length ∧
    (batchTransferOwnership s0 ["NOPE", "F2"] "b@x.com"
      { continueOnError := some false }).1.results.length ≤ 2 ∧
    (∀ x ∈ (batchTransferOwnership s0 ["NOPE", "F2"] "b@x.com"
        { continueOnError := some false }).1.results.dropLast, x.success = true) ∧
    ((batchTransferOwnership s0 ["NOPE", "F2"] "b@x.com"
        { continueOnError := some false }).1.results.length < 2 →
      ∃ x, (batchTransferOwnership s0 ["NOPE", "F2"] "b@x.com"
          { continueOnError := some false }).1.results.getLast? = some x ∧
        x.success = false) :=
  claim_C5_halt_on_failure s0 ["NOPE", "F2"] "b@x.com"
    { continueOnError := some false } rfl

/-- C7: the outcome sequence lists the processed items in exactly the input
order: mapping each outcome to its `fileId` yields precisely the processed
prefix of the input sequence (no reordering, duplication or omission). -/
theorem claim_C7_output_order (s : DriveState) (fileIds : List String)
    (newOwnerEmail : String) (options : TransferOptions) :
    (batchTransferOwnership s fileIds newOwnerEmail options).1.results.map
        (fun x => x.fileId) =
      fileIds.take
        (batchTransferOwnership s fileIds newOwnerEmail options).1.results.length :=
  batchLoop_map_fileId newOwnerEmail options
    (options.delayBetweenTransfers.getD 1000)
    (options.continueOnError.getD true) fileIds s

/-- C10: on the empty input sequence the batch returns no outcomes, the
summary `{successful := 0, failed := 0, total := 0}`, an unchanged state and
an empty event trace (no API call, no delay). -/
theorem claim_C10_empty_batch (s : DriveState) (newOwnerEmail : String)
    (options : TransferOptions) :
    batchTransferOwnership s [] newOwnerEmail options =
      ({ results := [],
         summary := { successful := 0, failed := 0, total := 0 } }, s, []) := rfl

/-- C2 counterexample: with the syntactically invalid target email
"not-an-email", `transferFileOwnership` does not fail with an invalid-input
error before any API call — it issues API calls (the trace is nonempty) and
even returns a success outcome, having created and promoted a permission for
the invalid address. -/
theorem claim_C2_counterexample :
    isValidEmail "not-an-email" = false ∧
    resultSuccess (transferFileOwnership s0 "F1" "not-an-email" {}).1 = true ∧
    (transferFileOwnership s0 "F1" "not-an-email" {}).2.2 ≠ [] := by
  refine ⟨rfl, rfl, ?_⟩
  decide

/-- C2 amended: `transferFileOwnership` performs no syntactic validation of
the target email; for every state, file id, email (valid or not) and options
its very first action is the `files.get` API call, so no invalid-input
failure ever precedes an API call.  The syntactic check `isValidEmail` is
used only by `validateTransferPreconditions`. -/
theorem claim_C2_amended (s : DriveState) (fileId newOwnerEmail : String)
    (options : TransferOptions) :
    (transferFileOwnership s fileId newOwnerEmail options).2.2.head? =
      some (Event.getFile fileId) :=
  trace_head_transferOwnershipCore s fileId newOwnerEmail _ _

/-- C3 counterexample: with `options.transferOwnership = false`,
`transferFileOwnership` returns a success outcome although afterwards the
target holds only the `writer` role, not `owner`. -/
theorem claim_C3_counterexample :
    resultSuccess (transferFileOwnership s0 "F1" "b@x.com"
      { transferOwnership := some false }).1 = true ∧
    targetPermissionRole (transferFileOwnership s0 "F1" "b@x.com"
      { transferOwnership := some false }).2.1 "F1" "b@x.com" = some "writer" ∧
    ("writer" : String) ≠ "owner" := by
  refine ⟨rfl, rfl, ?_⟩
  decide

/-- C3 amended: when the `transferOwnership` option is absent or `true` (its
default), a transfer invocation reports success exactly when the target
principal's permission role on the file equals `owner` in the resulting
state. -/
theorem claim_C3_amended (s : DriveState) (fileId newOwnerEmail : String)
    (options : TransferOptions)
    (h : options.transferOwnership = none ∨ options.transferOwnership = some true) :
    (resultSuccess (transferFileOwnership s fileId newOwnerEmail options).1 = true ↔
      targetPermissionRole (transferFileOwnership s fileId newOwnerEmail
        options).2.1 fileId newOwnerEmail = some "owner") := by
  have hgd : options.transferOwnership.getD true = true := by
    rcases h with h | h <;> rw [h] <;> rfl
  unfold transferFileOwnership
  rw [hgd]
  cases hl : lookupFile s fileId with
  | none =>
    rw [transferOwnershipCore_of_none hl newOwnerEmail true
      (options.sendNotificationEmail.getD false)]
    constructor
    · intro hs
      simp [resultSuccess] at hs
    · intro hro
      simp [targetPermissionRole, hl] at hro
  | some df =>
    have hm := transferOwnershipCore_ok_of_some hl newOwnerEmail true
      (options.sendNotificationEmail.getD false)
    exact iff_of_true hm.1 (hm.2.2 rfl)

/-- C3 amended witness: a concrete transfer with default options. -/
theorem claim_C3_amended_witness :
    (resultSuccess (transferFileOwnership s0 "F1" "b@x.com" {}).1 = true ↔
      targetPermissionRole (transferFileOwnership s0 "F1" "b@x.com" {}).2.1
        "F1" "b@x.com" = some "owner") :=
  claim_C3_amended s0 "F1" "b@x.com" {} (Or.inl rfl)

/-- C6 counterexample: in a two-file batch whose first (non-final) element
fails while `continueOnError` defaults to true, both elements are processed
but no inter-transfer delay at all is suspended — the code only delays after
a successful transfer, contradicting "delay after every non-final processed
element including failures". -/
theorem claim_C6_counterexample :
    delayEvents (batchTransferOwnership s0 ["NOPE", "F2"] "b@x.com" {}).2.2 = [] ∧
    (batchTransferOwnership s0 ["NOPE", "F2"] "b@x.com" {}).1.results.length = 2 ∧
    (batchTransferOwnership s0 ["NOPE", "F2"] "b@x.com"
      {}).1.summary.successful = 1 ∧
    (batchTransferOwnership s0 ["NOPE", "F2"] "b@x.com" {}).1.summary.failed = 1 := by
  exact ⟨rfl, rfl, rfl, rfl⟩

/-- C6 amended: the number of suspended inter-transfer delays equals the
number of successfully processed non-final input elements — a delay follows
each non-final success, and no delay follows a failed element. -/
theorem claim_C6_amended (s : DriveState) (fileIds : List String)
    (newOwnerEmail : String) (options : TransferOptions) :
    (delayEvents (batchTransferOwnership s fileIds newOwnerEmail
        options).2.2).length =
      (((batchTransferOwnership s fileIds newOwnerEmail options).1.results.take
        (fileIds.length - 1)).filter (fun x => x.success)).length :=
  delayEvents_batchLoop newOwnerEmail options
    (options.delayBetweenTransfers.getD 1000)
    (options.continueOnError.getD true) fileIds s

/-- C4: (a) when the target already holds an `owner` permission on the file,
`transferFileOwnership` short-circuits: it returns success with message
"Already owner", leaves the state unchanged, and its trace —
`files.get` followed by `permissions.list` — contains no write call;
(b) idempotence: a second call immediately after any successful call
succeeds without issuing any write call (in particular no promotion
`permissions.update`). -/
theorem claim_C4_already_owner_idempotent (s : DriveState)
    (fileId newOwnerEmail : String) (options : TransferOptions) :
    (∀ df p, lookupFile s fileId = some df →
        df.permissions.find? (fun q => q.emailAddress == newOwnerEmail) = some p →
        p.role = "owner" →
        transferFileOwnership s fileId newOwnerEmail options =
          (Except.ok
             { success := true, message := some "Already owner", error := none,
               fileId := fileId, fileName := some df.record.name, newOwner := none },
           s, [Event.getFile fileId, Event.listPermissions fileId]) ∧
        writeEvents [Event.getFile fileId, Event.listPermissions fileId] = []) ∧
    (∀ o, (transferFileOwnership s fileId newOwnerEmail options).1 = Except.ok o →
        resultSuccess (transferFileOwnership
          (transferFileOwnership s fileId newOwnerEmail options).2.1
          fileId newOwnerEmail options).1 = true ∧
        writeEvents (transferFileOwnership
          (transferFileOwnership s fileId newOwnerEmail options).2.1
          fileId newOwnerEmail options).2.2 = []) := by
  constructor
  · intro df p hl hf hr
    exact ⟨transferOwnershipCore_already_owner hl hf hr _ _, rfl⟩
  · intro o hok
    have hsome := transferFileOwnership_ok_target_isSome hok
    generalize hs1 : (transferFileOwnership s fileId newOwnerEmail options).2.1 = s1
    rw [hs1] at hsome
    obtain ⟨r, hr⟩ := Option.isSome_iff_exists.mp hsome
    obtain ⟨df1, p1, hl1, hf1, hrole1⟩ := targetPermissionRole_eq_some hr
    cases hgd : options.transferOwnership.getD true with
    | true =>
      cases hl : lookupFile s fileId with
      | none =>
        unfold transferFileOwnership at hok
        rw [transferOwnershipCore_of_none hl newOwnerEmail _ _] at hok
        simp at hok
      | some df =>
        have hm := transferOwnershipCore_ok_of_some hl newOwnerEmail true
          (options.sendNotificationEmail.getD false)
        have hro : targetPermissionRole s1 fileId newOwnerEmail = some "owner" := by
          rw [← hs1]
          show targetPermissionRole
            (transferOwnershipCore s fileId newOwnerEmail
              (options.transferOwnership.getD true)
              (options.sendNotificationEmail.getD false)).2.1
            fileId newOwnerEmail = some "owner"
          rw [hgd]
          exact hm.2.2 rfl
        rw [hr] at hro
        injection hro with hro
        rw [hro] at hrole1
        unfold transferFileOwnership
        rw [hgd, transferOwnershipCore_already_owner hl1 hf1 hrole1 true _]
        exact ⟨rfl, rfl⟩
    | false =>
      by_cases hro1 : p1.role = "owner"
      · unfold transferFileOwnership
        rw [hgd, transferOwnershipCore_already_owner hl1 hf1 hro1 false _]
        exact ⟨rfl, rfl⟩
      · have hb : (p1.role == "owner") = false := by simpa using hro1
        unfold transferFileOwnership
        rw [hgd, transferOwnershipCore_existing_skip hl1 hf1 hb _]
        exact ⟨rfl, rfl⟩

/-- C4 witness: on `s0`, `a@x.com` already owns `F1`; the transfer
short-circuits with "Already owner" and performs no write call. -/
theorem claim_C4_already_owner_idempotent_witness :
    transferFileOwnership s0 "F1" "a@x.com" {} =
      (Except.ok
         { success := true, message := some "Already owner", error := none,
           fileId := "F1", fileName := some "Doc1", newOwner := none },
       s0, [Event.getFile "F1", Event.listPermissions "F1"]) ∧
    writeEvents [Event.getFile "F1", Event.listPermissions "F1"] = [] :=
  (claim_C4_already_owner_idempotent s0 "F1" "a@x.com" {}).1
    fileF1 ownerPermA rfl rfl rfl

/-- C8 counterexample: the option recognized by the code is named
`delayBetweenTransfers`, not `delayBetweenTransfersMs`: a caller passing
`{delayBetweenTransfersMs := 5}` observes the default 1000 ms delay, not 5,
whereas passing `{delayBetweenTransfers := 5}` yields a 5 ms delay. -/
theorem claim_C8_counterexample :
    delayEvents (batchTransferOwnership s0 ["F1", "F2"] "b@x.com"
      { delayBetweenTransfersMs := some 5 }).2.2 = [Event.delay 1000] ∧
    delayEvents (batchTransferOwnership s0 ["F1", "F2"] "b@x.com"
      { delayBetweenTransfers := some 5 }).2.2 = [Event.delay 5] :=
  ⟨rfl, rfl⟩

/-- C8 amended: the pacing option the code recognizes is
`delayBetweenTransfers` with default 1000: every suspended delay equals the
`delayBetweenTransfers` value when that key is passed; an absent
`continueOnError` behaves as `true` and an absent `delayBetweenTransfers`
behaves as `1000` (the `delayBetweenTransfersMs` key plays no role). -/
theorem claim_C8_recognized_options (s : DriveState) (fileIds : List String)
    (newOwnerEmail : String) (options : TransferOptions) :
    (∀ d, options.delayBetweenTransfers = some d →
      ∀ ev ∈ delayEvents (batchTransferOwnership s fileIds newOwnerEmail
        options).2.2, ev = Event.delay d) ∧
    (options.continueOnError = none →
      batchTransferOwnership s fileIds newOwnerEmail options =
        batchTransferOwnership s fileIds newOwnerEmail
          { options with continueOnError := some true }) ∧
    (options.delayBetweenTransfers = none →
      batchTransferOwnership s fileIds newOwnerEmail options =
        batchTransferOwnership s fileIds newOwnerEmail
          { options with delayBetweenTransfers := some 1000 }) := by
  refine ⟨?_, ?_, ?_⟩
  · intro d hd ev hev
    have hmem := delayEvents_batchLoop_mem newOwnerEmail options
      (options.delayBetweenTransfers.getD 1000)
      (options.continueOnError.getD true) fileIds s ev hev
    rw [hd] at hmem
    simpa using hmem
  · intro hc
    have hcongr := @batchLoop_opts_congr options
      { options with continueOnError := some true } rfl rfl newOwnerEmail
      fileIds s (options.delayBetweenTransfers.getD 1000) true
    simp only [batchTransferOwnership, hc, Option.getD_none, Option.getD_some]
    rw [hcongr]
  · intro hd
    have hcongr := @batchLoop_opts_congr options
      { options with delayBetweenTransfers := some 1000 } rfl rfl newOwnerEmail
      fileIds s 1000 (options.continueOnError.getD true)
    simp only [batchTransferOwnership, hd, Option.getD_none, Option.getD_some]
    rw [hcongr]

/-- C8 witness: dropping `continueOnError` equals passing `some true`. -/
theorem claim_C8_recognized_options_witness :
    batchTransferOwnership s0 ["F1"] "b@x.com" {} =
      batchTransferOwnership s0 ["F1"] "b@x.com"
        { continueOnError := some true } :=
  (claim_C8_recognized_options s0 ["F1"] "b@x.com" {}).2.1 rfl

theorem validateTransferPreconditions_snd (s : DriveState)
    (fileId newOwnerEmail : String) :
    (validateTransferPreconditions s fileId newOwnerEmail).2 =
      [Event.getFile fileId] := by
  cases hl : lookupFile s fileId with
  | none => simp [validateTransferPreconditions, getFileDetails_of_none hl]
  | some df =>
    cases hh : (df.record.owners.getD []).head? with
    | none => simp [validateTransferPreconditions, getFileDetails_of_some hl, hh]
    | some pr =>
      by_cases he : isValidEmail newOwnerEmail = true <;>
        simp [validateTransferPreconditions, getFileDetails_of_some hl, hh, he]

/-- C9: `validateTransferPreconditions` never throws — it always returns
either `{valid := true, currentOwner, fileName, error := none}` or
`{valid := false, error := some cause}`; its trace is the single read
`files.get` (no write API call); on a file whose owners list starts with `p`
and a syntactically valid email it returns `valid := true` with
`currentOwner = p.emailAddress` (the owner at position 0) and the file name;
an empty or absent owners sequence yields `valid := false`, as does an email
rejected by `isValidEmail`. -/
theorem claim_C9_validate (s : DriveState) (fileId newOwnerEmail : String) :
    writeEvents (validateTransferPreconditions s fileId newOwnerEmail).2 = [] ∧
    (((validateTransferPreconditions s fileId newOwnerEmail).1.valid = true ∧
        (validateTransferPreconditions s fileId newOwnerEmail).1.error = none) ∨
      ((validateTransferPreconditions s fileId newOwnerEmail).1.valid = false ∧
        ((validateTransferPreconditions s fileId
          newOwnerEmail).1.error).isSome = true)) ∧
    (∀ df p ps, lookupFile s fileId = some df →
      df.record.owners = some (p :: ps) → isValidEmail newOwnerEmail = true →
      (validateTransferPreconditions s fileId newOwnerEmail).1 =
        { valid := true, currentOwner := some p.emailAddress,
          fileName := some df.record.name, error := none }) ∧
    (∀ df, lookupFile s fileId = some df →
      (df.record.owners = none ∨ df.record.owners = some []) →
      (validateTransferPreconditions s fileId newOwnerEmail).1.valid = false) ∧
    (isValidEmail newOwnerEmail = false →
      (validateTransferPreconditions s fileId newOwnerEmail).1.valid = false) := by
  refine ⟨?_, ?_, ?_, ?_, ?_⟩
  · rw [validateTransferPreconditions_snd]
    rfl
  · cases hl : lookupFile s fileId with
    | none => simp [validateTransferPreconditions, getFileDetails_of_none hl]
    | some df =>
      cases hh : (df.record.owners.getD []).head? with
      | none =>
        simp [validateTransferPreconditions, getFileDetails_of_some hl, hh]
      | some pr =>
        by_cases he : isValidEmail newOwnerEmail = true <;>
          simp [validateTransferPreconditions, getFileDetails_of_some hl, hh, he]
  · intro df p ps hl ho he
    simp [validateTransferPreconditions, getFileDetails_of_some hl, ho, he]
  · intro df hl hor
    rcases hor with ho | ho <;>
      simp [validateTransferPreconditions, getFileDetails_of_some hl, ho]
  · intro hnv
    cases hl : lookupFile s fileId with
    | none => simp [validateTransferPreconditions, getFileDetails_of_none hl]
    | some df =>
      cases hh : (df.record.owners.getD []).head? with
      | none =>
        simp [validateTransferPreconditions, getFileDetails_of_some hl, hh]
      | some pr =>
        simp [validateTransferPreconditions, getFileDetails_of_some hl, hh, hnv]

/-- C9 witness: validating `F1` against `b@x.com` returns the first owner
`a@x.com` and the file name. -/
theorem claim_C9_validate_witness :
    (validateTransferPreconditions s0 "F1" "b@x.com").1 =
      { valid := true, currentOwner := some "a@x.com",
        fileName := some "Doc1", error := none } :=
  (claim_C9_validate s0 "F1" "b@x.com").2.2.1 fileF1 principalA [] rfl rfl rfl

end DriveTransfer
